import Mathlib

/-!
Verification development for the elephant_parsel postgres_db module
(src/elephant_parsel/postgres_db.py).

Bytes are modelled as natural numbers (37 is the percent sign, 115 is the
letter s, 10 is the newline, 44 is the comma, 40 and 41 are parentheses).
Byte strings are lists of naturals, and Python lists of byte strings are
lists of such lists.  External collaborators (the psycopg2 driver, the
condition variable, the logger) are modelled by explicit parameters or by
small transition systems, as documented at each definition.
-/

namespace ElephantParsel

/-! ## The bulk-statement batcher: template splitting (lines 12-41) -/

/-- Helper for the model of re.split: prepend a byte to the first chunk of a
chunk list (the text that precedes the first regex match grows backwards). -/
def consFirst (c : Nat) : List (List Nat) → List (List Nat)
  | [] => [[c]]
  | t :: ts => (c :: t) :: ts

/-- Model of the external call re.split with the pattern percent-dot and one
capture group (line 20).  The result alternates text chunks and two-byte
match chunks, starting and ending with a (possibly empty) text chunk.  The
regex dot does not match a newline, so a percent sign followed by byte 10 is
ordinary text, as is a percent sign that ends the input. -/
def reSplitPct : List Nat → List (List Nat)
  | [] => [[]]
  | [c] => [[c]]
  | c :: d :: rest =>
    if c = 37 ∧ d ≠ 10 then [] :: [c, d] :: reSplitPct rest
    else consFirst c (reSplitPct (d :: rest))

/-- The token test of the loop (line 22, negated): a token is interpreted
as an escape exactly when it has two bytes and starts with the percent
byte; every other token is text. -/
def isEscapeTok (tok : List Nat) : Bool :=
  tok.length == 2 && tok.head? == some 37

/-- The token loop of the source function split_sql (lines 18-41): tokens go
to the current side (pre before the placeholder, post after); a percent-s
token switches sides once and is an error the second time; a double percent
appends a single percent byte; any other two-byte token starting with a
percent byte is an unsupported format character.  The Bool argument records
whether the current side is post (in the source, curr is post). -/
def splitSqlLoop : List (List Nat) → List (List Nat) → List (List Nat) → Bool →
    Except String (List (List Nat) × List (List Nat))
  | [], pr, po, inPost =>
    if inPost then .ok (pr, po)
    else .error "the query does not contain any placeholder"
  | tok :: toks, pr, po, inPost =>
    if isEscapeTok tok then
      if tok.getD 1 0 = 115 then
        if inPost then .error "the query contains more than one placeholder"
        else splitSqlLoop toks pr po true
      else if tok.getD 1 0 = 37 then
        if inPost then splitSqlLoop toks pr (po ++ [[37]]) inPost
        else splitSqlLoop toks (pr ++ [[37]]) po inPost
      else .error "unsupported format character"
    else
      if inPost then splitSqlLoop toks pr (po ++ [tok]) inPost
      else splitSqlLoop toks (pr ++ [tok]) po inPost

/-- Embedding of the source function split_sql (lines 12-41): tokenize with
re.split, then run the token loop with empty pre and post accumulators,
starting on the pre side. -/
def split_sql (sql : List Nat) : Except String (List (List Nat) × List (List Nat)) :=
  splitSqlLoop (reSplitPct sql) [] [] false

/-- The split result with both chunk lists flattened to byte strings (the
source joins the chunks with empty separators when building statements). -/
def split_sql_flat (sql : List Nat) : Except String (List Nat × List Nat) :=
  (split_sql sql).map (fun p => (p.1.flatten, p.2.flatten))

/-- Prefix both sides of a split result with given accumulator contents
(how splitSqlLoop results compose with nonempty accumulators). -/
def withAcc (pr po : List (List Nat)) :
    Except String (List (List Nat) × List (List Nat)) →
    Except String (List (List Nat) × List (List Nat))
  | .error m => .error m
  | .ok pq => .ok (pr ++ pq.1, po ++ pq.2)

/-- The split loop run on the tokens of a byte string with empty
accumulators, starting on the given side, with the result flattened; on the
false side this is split_sql_flat. -/
def runFlat (sql : List Nat) (b : Bool) : Except String (List Nat × List Nat) :=
  (splitSqlLoop (reSplitPct sql) [] [] b).map (fun p => (p.1.flatten, p.2.flatten))

/-- Claim-side scan: the number of percent-s placeholders in a template,
scanning left to right and consuming two bytes at every percent sign, so
that an escaped percent hides a following s. -/
def phCount : List Nat → Nat
  | [] => 0
  | [_] => 0
  | c :: d :: rest =>
    if c = 37 then (if d = 115 then phCount rest + 1 else phCount rest)
    else phCount (d :: rest)

/-- Claim-side scan: whether the template contains a percent escape that is
neither percent-s nor percent-percent (same left-to-right pair scan as
phCount).  A percent sign that ends the template is not an escape. -/
def hasBadEscape : List Nat → Bool
  | [] => false
  | [_] => false
  | c :: d :: rest =>
    if c = 37 then (if d = 115 ∨ d = 37 then hasBadEscape rest else true)
    else hasBadEscape (d :: rest)

/-- Claim-side transformation: replace every double percent by a single
percent byte, leaving everything else unchanged (same pair scan). -/
def unescapePct : List Nat → List Nat
  | [] => []
  | [c] => [c]
  | c :: d :: rest =>
    if c = 37 then
      (if d = 37 then 37 :: unescapePct rest else c :: d :: unescapePct rest)
    else c :: unescapePct (d :: rest)

/-- Claim-side decomposition: the unescaped text before and after the first
percent-s placeholder, or none when there is no placeholder. -/
def splitAtPH : List Nat → Option (List Nat × List Nat)
  | [] => none
  | [_] => none
  | c :: d :: rest =>
    if c = 37 then
      if d = 115 then some ([], unescapePct rest)
      else if d = 37 then (splitAtPH rest).map (fun p => (37 :: p.1, p.2))
      else (splitAtPH rest).map (fun p => (37 :: d :: p.1, p.2))
    else (splitAtPH (d :: rest)).map (fun p => (c :: p.1, p.2))

/-- What the claim asserts of the split while the placeholder has not been
seen yet (the pre side): success exactly for one placeholder and no
unsupported escape, with the unescaped decomposition around the
placeholder; failure otherwise. -/
def SplitSpecPre (sql : List Nat) : Prop :=
  (phCount sql = 1 ∧ hasBadEscape sql = false →
    ∃ pq, runFlat sql false = .ok pq ∧ splitAtPH sql = some pq) ∧
  (¬(phCount sql = 1 ∧ hasBadEscape sql = false) →
    ∃ m, runFlat sql false = .error m)

/-- What the claim asserts of the split after the placeholder (the post
side): success exactly for no further placeholder and no unsupported
escape, with the unescaped remainder; failure otherwise. -/
def SplitSpecPost (sql : List Nat) : Prop :=
  (phCount sql = 0 ∧ hasBadEscape sql = false →
    runFlat sql true = .ok ([], unescapePct sql)) ∧
  (¬(phCount sql = 0 ∧ hasBadEscape sql = false) →
    ∃ m, runFlat sql true = .error m)

/-! ## The bulk-statement batcher: pagination and page execution (lines 44-90) -/

/-- Embedding of the source generator paginate (lines 44-60) for a positive
page size: consecutive chunks of exactly page_size elements, with a final
shorter nonempty chunk for the leftover.  For page_size = 0 the source loop
never terminates (it yields empty chunks forever, see paginate_step), so
that case is mapped to the junk value []. -/
def backported_paginate : List α → Nat → List (List α)
  | _, 0 => []
  | [], _ + 1 => []
  | x :: xs, ps + 1 => (x :: xs.take ps) :: backported_paginate (xs.drop ps) (ps + 1)
termination_by l _ => l.length
decreasing_by simp [List.length_drop]; omega

/-- One iteration of the while loop inside paginate (lines 51-60): collect up
to page_size items from the iterator into the page.  If the page reaches
page_size elements it is yielded and the loop continues on the remaining
items (third component false); otherwise the iterator is exhausted, a
nonempty leftover page is yielded, an empty one is not, and the generator
returns (third component true). -/
def paginate_step (seq : List α) (page_size : Nat) : Option (List α) × List α × Bool :=
  let page := seq.take page_size
  if page.length = page_size then (some page, seq.drop page_size, false)
  else (if page.isEmpty then none else some page, seq.drop page_size, true)

/-- The per-row template inferred on the first page when none is supplied
(line 80): an open parenthesis, arity many percent-s joined by commas, and a
close parenthesis. -/
def infer_template (arity : Nat) : List Nat :=
  [40] ++ List.intercalate [44] (List.replicate arity [37, 115]) ++ [41]

/-- One batched statement for one page (lines 81-86): the pre chunks, then
for every row the mogrified row template followed by a comma, with the final
comma replaced by the post chunks, all joined.  mog models the external
cursor.mogrify of the driver. -/
def build_statement (mog : List Nat → α → List Nat) (pr po : List (List Nat))
    (tmpl : List Nat) (page : List α) : List Nat :=
  let parts := pr ++ page.flatMap (fun a => [mog tmpl a, [44]])
  (parts.dropLast ++ po).flatten

/-- The page loop of execute_values (lines 78-88) with fetch requested: for
every page, infer the template from the arity of the first row of the first
page if none was given, execute one built statement, and extend the result
with the rows the driver returns for that statement.  The rows returned by
the driver for the i-th executed statement are supplied as the i-th element
of responses.  Returns the executed statements in order and the accumulated
rows. -/
def ev_loop (mog : List Nat → α → List Nat) (arity : α → Nat) (pr po : List (List Nat)) :
    Option (List Nat) → List (List α) → List (List ρ) → List (List Nat) × List ρ
  | _, [], _ => ([], [])
  | tmplOpt, page :: pages, resps =>
    let tmpl := tmplOpt.getD (infer_template (match page.head? with
      | some a => arity a
      | none => 0))
    let stmt := build_statement mog pr po tmpl page
    let rest := ev_loop mog arity pr po (some tmpl) pages resps.tail
    (stmt :: rest.1, resps.headD [] ++ rest.2)

/-- Embedding of execute_values (lines 63-90) with fetch true, as called by
the transaction facade: split the template once, then run the page loop over
the paginated argument list. -/
def backported_execute_values (mog : List Nat → α → List Nat) (arity : α → Nat)
    (sql : List Nat) (argslist : List α) (template : Option (List Nat))
    (page_size : Nat) (resps : List (List ρ)) :
    Except String (List (List Nat) × List ρ) :=
  match split_sql sql with
  | .error m => .error m
  | .ok (pr, po) =>
    .ok (ev_loop mog arity pr po template (backported_paginate argslist page_size) resps)

/-! ## Errors raised by this layer and by its collaborators -/

/-- The kinds of error that can cross the boundaries modelled here.
poolClosed and poolExhausted are the two psycopg2 PoolError conditions;
interfaceError is psycopg2.InterfaceError (the connection itself is dead);
statementError stands for any other driver error (SQL-level failure);
postgresDBExc is the PostgresDBException raised by this layer (line 93);
keyError is the Python KeyError of a missing row column; attributeError
marks the unreachable exit of a never-entered transaction handle. -/
inductive PyErr where
  | poolClosed
  | poolExhausted
  | interfaceError
  | statementError
  | postgresDBExc
  | keyError
  | attributeError
deriving DecidableEq

/-! ## The waiting connection pool (lines 105-156) -/

/-- The bookkeeping state of the psycopg2 AbstractConnectionPool that
WaitingThreadedConnectionPool extends: the stack of available connections
(the Python attribute named pool, its top modelled at the head), the
checked-out connections (the used dictionary, keyless usage), the closed
flag, the sizing parameters, and a counter supplying ids for newly created
connections. -/
structure PoolState where
  available : List Nat
  used : List Nat
  closed : Bool
  minconn : Nat
  maxconn : Nat
  nextId : Nat
deriving DecidableEq

/-- Model of the inherited psycopg2 primitive getconn without keys: fail if
the pool is closed; otherwise hand out an available connection, or create a
fresh one while below maxconn, or fail with the pool-exhausted error.
Creating a connection is modelled as always succeeding. -/
def rawGetconn (s : PoolState) : Except PyErr (Nat × PoolState) :=
  if s.closed then .error .poolClosed
  else
    match s.available with
    | c :: rest => .ok (c, { s with available := rest, used := c :: s.used })
    | [] =>
      if s.used.length = s.maxconn then .error .poolExhausted
      else .ok (s.nextId, { s with used := s.nextId :: s.used, nextId := s.nextId + 1 })

/-- Model of the inherited psycopg2 primitive putconn without keys: the
connection always leaves the used set; it returns to the available stack
only when the pool is open, the close flag is not set and the available
stack is below minconn, and is closed and discarded otherwise. -/
def rawPutconn (s : PoolState) (c : Nat) (close : Bool) : PoolState :=
  if s.closed then { s with used := s.used.erase c }
  else if s.available.length < s.minconn ∧ close = false then
    { s with used := s.used.erase c, available := s.available ++ [c] }
  else { s with used := s.used.erase c }

/-- Embedding of WaitingThreadedConnectionPool.putconn (lines 141-149): run
the raw putconn under the lock, remember whether the available stack grew,
and report whether one waiter is to be notified (the notify call under the
condition lock happens exactly when the stack grew). -/
def putconn (s : PoolState) (c : Nat) (close : Bool) : PoolState × Bool :=
  let s2 := rawPutconn s c close
  (s2, decide (s.available.length < s2.available.length))

/-- The shape of one call to WaitingThreadedConnectionPool.getconn
(lines 122-139).  immediate: the first locked attempt returned a connection.
raised: the first attempt failed and the pool was closed, so the error
propagates.  waitsThenRetries: the first attempt failed on an open pool, so
the caller blocks on the condition variable with the recorded timeout (none
means an unbounded wait) and then makes exactly one further locked attempt,
whose result is final. -/
inductive GetconnOutcome where
  | immediate (conn : Nat) (s : PoolState)
  | raised (e : PyErr)
  | waitsThenRetries (waitTimeout : Option Nat) (second : Except PyErr (Nat × PoolState))

/-- Embedding of WaitingThreadedConnectionPool.getconn (lines 122-139).  The
pool_timeout comes from the constructor (line 120).  duringWait is the
effect other threads have on the pool while this caller is blocked on the
condition variable; the straight-line source has one wait and one retry and
nothing more. -/
def getconn (pool_timeout : Option Nat) (s : PoolState)
    (duringWait : PoolState → PoolState) : GetconnOutcome :=
  match rawGetconn s with
  | .ok (c, s1) => .immediate c s1
  | .error e =>
    if s.closed then .raised e
    else .waitsThenRetries pool_timeout (rawGetconn (duringWait s))

/-! ## The transaction handle (lines 159-224) -/

/-- The mutable attributes of a PostgresTransaction: the checked-out
connection, whether the driver transaction was entered, and whether the
cursor was opened (the source never clears the cursor attribute on exit). -/
structure TxHandle where
  connection : Option Nat
  transactionOpen : Bool
  cursorOpen : Bool
deriving DecidableEq

/-- A handle as built by PostgresDB.transaction (line 310): all three
attributes unset. -/
def freshHandle : TxHandle :=
  { connection := none, transactionOpen := false, cursorOpen := false }

/-- Embedding of PostgresTransaction.enter (lines 172-187).  beginR is the
outcome of entering the driver transaction, cursorR of opening the cursor,
rollbackR of the driver transaction exit performed when the cursor fails;
each is an external driver call.  Re-entry while a connection is held raises
the PostgresDBException usage error without touching the pool.  After a
successful acquisition, any failure puts the connection back before the
error propagates; when the cursor fails the rollback runs first and its own
error, if any, replaces the cursor error. -/
def txEnter (s : PoolState) (h : TxHandle) (beginR cursorR rollbackR : Except PyErr Unit) :
    Except PyErr TxHandle × PoolState :=
  match h.connection with
  | some _ => (.error .postgresDBExc, s)
  | none =>
    match rawGetconn s with
    | .error e => (.error e, s)
    | .ok (c, s1) =>
      match beginR with
      | .error e => (.error e, (putconn s1 c false).1)
      | .ok _ =>
        match cursorR with
        | .error e =>
          let err := match rollbackR with
            | .ok _ => e
            | .error e2 => e2
          (.error err, (putconn s1 c false).1)
        | .ok _ => (.ok { connection := some c, transactionOpen := true, cursorOpen := true }, s1)

/-- Embedding of PostgresTransaction.exit (lines 189-195).  commitR is the
outcome of the driver transaction exit (commit on success, rollback on
failure, either of which may itself raise).  The finally block always clears
the transaction, puts the connection back and clears it, whatever commitR
did; the cursor attribute is left as it is, as in the source. -/
def txExit (s : PoolState) (h : TxHandle) (commitR : Except PyErr Unit) :
    Except PyErr Unit × PoolState × TxHandle :=
  match h.connection with
  | none => (.error .attributeError, s, h)
  | some c =>
    (commitR, (putconn s c false).1, { connection := none, transactionOpen := false,
                                       cursorOpen := h.cursorOpen })

/-- The external outcomes of one attempt to run a body inside a transaction:
the three enter steps, the body itself, and the commit-or-rollback on exit. -/
structure AttemptParams (α : Type) where
  beginR : Except PyErr Unit
  cursorR : Except PyErr Unit
  rollbackR : Except PyErr Unit
  bodyR : Except PyErr α
  commitR : Except PyErr Unit

/-- One with-statement over a fresh PostgresTransaction (line 314 or 323):
enter a fresh handle; on enter failure that error propagates; otherwise run
the body, then exit.  An error raised by the exit replaces the outcome; a
body error with a clean exit propagates; otherwise the body value is
returned. -/
def withTransaction (s : PoolState) (p : AttemptParams α) : Except PyErr α × PoolState :=
  match txEnter s freshHandle p.beginR p.cursorR p.rollbackR with
  | (.error e, s1) => (.error e, s1)
  | (.ok h, s1) =>
    let ex := txExit s1 h p.commitR
    match p.bodyR, ex.1 with
    | _, .error e2 => (.error e2, ex.2.1)
    | .error e, .ok _ => (.error e, ex.2.1)
    | .ok v, .ok _ => (.ok v, ex.2.1)

/-- Embedding of PostgresDB attempt_transaction_twice (lines 312-324), the
shared runner of query_one, query_all, execute_values and transactional
execute: run one attempt; only a psycopg2.InterfaceError makes it run a
second attempt on a fresh transaction, whose result is final; everything
else is final right away.  The last component counts the attempts made. -/
def attempt_transaction_twice (s : PoolState) (a1 a2 : AttemptParams α) :
    Except PyErr α × PoolState × Nat :=
  match withTransaction s a1 with
  | (.error .interfaceError, s1) =>
    let r2 := withTransaction s1 a2
    (r2.1, r2.2, 2)
  | (r1, s1) => (r1, s1, 1)

/-! ## Row projection and query_one (lines 97-102 and 200-211) -/

/-- A row as returned by the DictCursor: column names with values. -/
abbrev Row := List (String × Int)

/-- Column lookup on a row; none models a Python KeyError. -/
def rowLookup (r : Row) (k : String) : Option Int :=
  (r.find? (fun kv => kv.1 = k)).map (fun kv => kv.2)

/-- Python truthiness of the column argument: absent and the empty string
are falsy, any other string is truthy. -/
def columnTruthy : Option String → Bool
  | none => false
  | some c => decide (c ≠ "")

/-- The possible values of query_one: the Python None for an empty result,
one column value, the output of the row mapper, or the whole first row. -/
inductive QueryOneResult (β : Type) where
  | pyNone
  | cell (v : Int)
  | mapped (b : β)
  | wholeRow (r : Row)

/-- Embedding of PostgresTransaction.query_one (lines 200-211), with the
rows the executed statement yields supplied as a list (fetchone takes the
first).  No row gives the Python None; a truthy column projects the first
row to that column (a missing column is a KeyError); otherwise a supplied
mapper is applied to the fields of the first row; otherwise the row itself
is returned. -/
def query_one (rows : List Row) (map_row : Option (Row → β)) (column : Option String) :
    Except PyErr (QueryOneResult β) :=
  match rows with
  | [] => .ok .pyNone
  | row :: _ =>
    if columnTruthy column then
      match rowLookup row (column.getD "") with
      | some v => .ok (.cell v)
      | none => .error .keyError
    else
      match map_row with
      | some f => .ok (.mapped (f row))
      | none => .ok (.wholeRow row)

/-! ## The non-transactional execute path (lines 355-377) -/

/-- The external outcomes used by execute with use_transaction false: the
two set_session calls on the driver connection and the cursor execute. -/
structure NoTxParams where
  setTrueR : Except PyErr Unit
  execR : Except PyErr Unit
  setFalseR : Except PyErr Unit

/-- The observable result of the non-transactional path: the value or error
of the call, the pool afterwards, the autocommit flag of the acquired
connection at the end (none if no connection was acquired), the autocommit
flag in force when the statement ran (none if it never ran), and the number
of statement executions. -/
structure NoTxOutcome where
  result : Except PyErr Unit
  pool : PoolState
  finalAutocommit : Option Bool
  execAutocommit : Option Bool
  execCount : Nat

/-- Embedding of the else branch of PostgresDB.execute (lines 369-377): get
a connection straight from the pool; set autocommit; run the one statement;
the inner finally always switches autocommit back off (its own failure
replaces the statement outcome); the outer finally always puts the
connection back.  The acquired connection starts with autocommit off, as
pooled connections do. -/
def execute_no_transaction (s : PoolState) (p : NoTxParams) : NoTxOutcome :=
  match rawGetconn s with
  | .error e => { result := .error e, pool := s, finalAutocommit := none,
                  execAutocommit := none, execCount := 0 }
  | .ok (c, s1) =>
    match p.setTrueR with
    | .error e => { result := .error e, pool := (putconn s1 c false).1,
                    finalAutocommit := some false, execAutocommit := none, execCount := 0 }
    | .ok _ =>
      match p.setFalseR with
      | .error e2 => { result := .error e2, pool := (putconn s1 c false).1,
                       finalAutocommit := some true, execAutocommit := some true,
                       execCount := 1 }
      | .ok _ => { result := p.execR, pool := (putconn s1 c false).1,
                   finalAutocommit := some false, execAutocommit := some true,
                   execCount := 1 }

/-- Embedding of PostgresDB.execute (lines 355-377): the use_transaction
branch goes through the shared twice-runner, the other branch through the
direct autocommit path.  The last component counts transaction attempts in
the first case and statement executions in the second. -/
def db_execute (s : PoolState) (use_transaction : Bool) (a1 a2 : AttemptParams Unit)
    (p : NoTxParams) : Except PyErr Unit × PoolState × Nat :=
  if use_transaction then attempt_transaction_twice s a1 a2
  else
    let o := execute_no_transaction s p
    (o.result, o.pool, o.execCount)

/-- A small open pool with one available connection, used to instantiate
theorems at concrete inputs. -/
def onePool : PoolState :=
  { available := [5], used := [], closed := false, minconn := 1, maxconn := 1, nextId := 6 }

/-- Attempt outcomes in which every external call succeeds and the body
returns 0. -/
def okParams : AttemptParams Int :=
  { beginR := .ok (), cursorR := .ok (), rollbackR := .ok (), bodyR := .ok 0,
    commitR := .ok () }

/-- Attempt outcomes whose body reports a dead connection. -/
def brokenParams : AttemptParams Int :=
  { beginR := .ok (), cursorR := .ok (), rollbackR := .ok (),
    bodyR := .error .interfaceError, commitR := .ok () }

/-! ## A two-thread interleaving model of the wait and notify protocol -/

/-- Program counter of the waiter thread running getconn on an exhausted
pool: about to make the first locked attempt; first attempt failed and about
to enter the condition variable; blocked in the wait call; wait returned and
about to make the second locked attempt; finished with a connection;
finished with the pool error raised. -/
inductive WPc where
  | start
  | preWait
  | waiting
  | retry
  | gotConn
  | failed
deriving DecidableEq

/-- Program counter of the releasing thread running putconn: about to run
the locked putconn body; pool grew and about to notify under the condition
lock; finished. -/
inductive RPc where
  | relStart
  | relNotify
  | relDone
deriving DecidableEq

/-- Global state of the two-thread system: the shared pool, both program
counters, whether the configured pool_timeout is a finite number (false
models pool_timeout None, whose wait can end only by a notify), and a ghost
flag recording whether the release completed while the waiter was actually
blocked in the wait call. -/
structure Sys where
  pool : PoolState
  wpc : WPc
  rpc : RPc
  timeoutFinite : Bool
  releasedWhileWaiting : Bool
deriving DecidableEq

/-- The steps the waiter can take, following getconn (lines 130-139): the
locked attempts are atomic because every pool mutation happens under the one
lock; the wait can end by itself only when the timeout is finite. -/
def wStep (s : Sys) : List Sys :=
  match s.wpc with
  | .start =>
    match rawGetconn s.pool with
    | .ok (_, p2) => [{ s with wpc := .gotConn, pool := p2 }]
    | .error _ =>
      if s.pool.closed then [{ s with wpc := .failed }]
      else [{ s with wpc := .preWait }]
  | .preWait => [{ s with wpc := .waiting }]
  | .waiting => if s.timeoutFinite then [{ s with wpc := .retry }] else []
  | .retry =>
    match rawGetconn s.pool with
    | .ok (_, p2) => [{ s with wpc := .gotConn, pool := p2 }]
    | .error _ => [{ s with wpc := .failed }]
  | .gotConn => []
  | .failed => []

/-- The steps the releaser can take, following putconn (lines 141-149): the
locked putconn body returns connection 0 to the pool; if and only if the
available stack grew, a notify follows under the condition lock, waking the
waiter exactly when it is blocked in the wait call at that moment. -/
def rStep (s : Sys) : List Sys :=
  match s.rpc with
  | .relStart =>
    let r := putconn s.pool 0 false
    [{ s with pool := r.1,
              rpc := if r.2 then .relNotify else .relDone,
              releasedWhileWaiting := s.releasedWhileWaiting || decide (s.wpc = .waiting) }]
  | .relNotify =>
    [{ s with rpc := .relDone, wpc := if s.wpc = .waiting then .retry else s.wpc }]
  | .relDone => []

/-- All enabled steps of the system. -/
def sysSteps (s : Sys) : List Sys := wStep s ++ rStep s

/-- The initial pool of the two-thread scenario: capacity one, the single
connection checked out by the releasing thread, pool open. -/
def exhaustedPool : PoolState :=
  { available := [], used := [0], closed := false, minconn := 1, maxconn := 1, nextId := 1 }

/-- Initial state: the waiter about to call getconn on the exhausted pool,
the releaser about to put its connection back. -/
def initSys (timeoutFinite : Bool) : Sys :=
  { pool := exhaustedPool, wpc := .start, rpc := .relStart,
    timeoutFinite := timeoutFinite, releasedWhileWaiting := false }

/-- What must hold of a state in which no thread can take a step: if the
release completed while the waiter was blocked in the wait call, the waiter
holds a connection; and with a finite timeout the waiter never hangs (it
ends with a connection or with the pool error). -/
def finalOk (s : Sys) : Bool :=
  (!s.releasedWhileWaiting || decide (s.wpc = .gotConn)) &&
  (!s.timeoutFinite || decide (s.wpc = .gotConn) || decide (s.wpc = .failed))

/-- Bounded exploration of every interleaving: true when every maximal run
from the state, of length under the fuel, ends in a state satisfying
finalOk, and no run exhausts the fuel. -/
def checkFrom : Nat → Sys → Bool
  | 0, _ => false
  | n + 1, s =>
    match sysSteps s with
    | [] => finalOk s
    | s1 :: rest => (s1 :: rest).all (checkFrom n)

/-! ## The exception hierarchy and the login wrapper (lines 93-94, 268-283) -/

/-- The Python exception classes involved: the two builtin roots, the
psycopg2 classes (PoolError and InterfaceError both descend from Exception),
the builtin ValueError and KeyError, and the PostgresDBException of this
layer. -/
inductive ExcClass where
  | baseException
  | exception
  | poolError
  | interfaceError
  | valueError
  | keyError
  | postgresDBException
deriving DecidableEq

/-- The superclass chain of each class, from the class itself up to
BaseException.  Line 93 of the source makes PostgresDBException extend
BaseException directly, so Exception is not on its chain; the intermediate
psycopg2 and builtin classes are collapsed onto Exception. -/
def ancestorChain : ExcClass → List ExcClass
  | .baseException => [.baseException]
  | .exception => [.exception, .baseException]
  | .poolError => [.poolError, .exception, .baseException]
  | .interfaceError => [.interfaceError, .exception, .baseException]
  | .valueError => [.valueError, .exception, .baseException]
  | .keyError => [.keyError, .exception, .baseException]
  | .postgresDBException => [.postgresDBException, .baseException]

/-- Python class-based exception matching. -/
def isSubclassOf (c d : ExcClass) : Bool := decide (d ∈ ancestorChain c)

/-- Whether a raised instance of the class is caught by a handler written as
except Exception. -/
def caughtByExceptException (c : ExcClass) : Bool := isSubclassOf c .exception

/-- The class of each modelled error value. -/
def PyErr.cls : PyErr → ExcClass
  | .poolClosed => .poolError
  | .poolExhausted => .poolError
  | .interfaceError => .interfaceError
  | .statementError => .exception
  | .postgresDBExc => .postgresDBException
  | .keyError => .keyError
  | .attributeError => .exception

/-- Embedding of PostgresDB.login (lines 268-283) at the level of exception
classes: the body outcome (pool construction and optional hstore setup) is
given; an error caught by the except Exception handler is re-raised wrapped
as a PostgresDBException, anything else propagates as it is. -/
def login (bodyR : Except ExcClass Unit) : Except ExcClass Unit :=
  match bodyR with
  | .ok _ => .ok ()
  | .error c =>
    if caughtByExceptException c then .error .postgresDBException else .error c

/-! ## Shared bookkeeping lemmas -/

/-- A successful raw acquisition pushes the connection onto the used list
and changes nothing else about the used list. -/
theorem rawGetconn_ok_used (s : PoolState) (c : Nat) (s1 : PoolState)
    (h : rawGetconn s = .ok (c, s1)) : s1.used = c :: s.used := by
  unfold rawGetconn at h
  split at h
  · exact absurd h (by simp)
  · split at h
    · simp only [Except.ok.injEq, Prod.mk.injEq] at h
      obtain ⟨h1, h2⟩ := h
      subst h2; simp [h1]
    · split at h
      · exact absurd h (by simp)
      · simp only [Except.ok.injEq, Prod.mk.injEq] at h
        obtain ⟨h1, h2⟩ := h
        subst h2; simp [h1]

/-- Putting a connection back always removes it from the used list,
whatever happens to the available stack. -/
theorem putconn_used_erase (s : PoolState) (c : Nat) (close : Bool) :
    ((putconn s c close).1).used = s.used.erase c := by
  unfold putconn rawPutconn
  split
  · rfl
  · split <;> rfl

/-! ## C1 -/

/-- C1: the claim (and the docstrings at lines 126-128 and 240-242) say
that getconn on an exhausted, open pool with pool_timeout None fails
immediately with the pool-exhausted error and does not block.  Evaluating
the embedded getconn at such a pool shows the code instead swallows the
pool-exhausted error of the first attempt and proceeds to block on the
condition variable with timeout None, an unbounded wait that only an
external notify can end; the recorded second attempt happens only after
such a wake.  This contradicts the claim and the documented intent, so the
code, not the claim, is wrong here. -/
theorem c1_no_timeout_blocks_instead_of_raising :
    getconn none exhaustedPool id =
      GetconnOutcome.waitsThenRetries none (Except.error PyErr.poolExhausted) := rfl

/-! ## C4 -/

/-- C4: on an exhausted, open pool with pool_timeout configured, getconn
enters exactly one condition wait bounded by that timeout, then re-attempts
acquisition exactly once more; the result of that second raw attempt is
final, so if the pool is still exhausted the error propagates, and if a
connection was released during the wait the retry returns it.  There is no
loop in the source: the outcome below is the whole behavior. -/
theorem c4_one_wait_one_retry (t : Nat) (s : PoolState) (env : PoolState → PoolState)
    (hex : rawGetconn s = .error .poolExhausted) (hopen : s.closed = false) :
    getconn (some t) s env = .waitsThenRetries (some t) (rawGetconn (env s)) ∧
    (∀ e, rawGetconn (env s) = .error e →
      getconn (some t) s env = .waitsThenRetries (some t) (.error e)) ∧
    (∀ c s2, rawGetconn (env s) = .ok (c, s2) →
      getconn (some t) s env = .waitsThenRetries (some t) (.ok (c, s2))) := by
  have hmain : getconn (some t) s env = .waitsThenRetries (some t) (rawGetconn (env s)) := by
    unfold getconn
    rw [hex]
    simp [hopen]
  refine ⟨hmain, ?_, ?_⟩
  · intro e he; rw [hmain, he]
  · intro c s2 he; rw [hmain, he]

/-- C4 witness: a one-connection pool whose only connection is checked out;
the environment releases it during the wait, and the single retry obtains
it. -/
theorem c4_witness :
    getconn (some 1) exhaustedPool (fun p => (putconn p 0 false).1) =
      .waitsThenRetries (some 1)
        (rawGetconn ((fun p => (putconn p 0 false).1) exhaustedPool)) :=
  (c4_one_wait_one_retry 1 exhaustedPool _ rfl rfl).1

/-! ## C2 -/

/-- C2: the shared runner behind query_one, query_all, execute_values and
transactional execute makes exactly one attempt when the first attempt
succeeds or fails with anything but psycopg2.InterfaceError, propagating
that outcome unchanged; an InterfaceError on the first attempt causes
exactly one second attempt on a fresh transaction over the post-release
pool, whose outcome, error or value, is final. -/
theorem c2_retry_policy (s : PoolState) (a1 a2 : AttemptParams α) :
    (∀ v, (withTransaction s a1).1 = .ok v →
      attempt_transaction_twice s a1 a2 = (.ok v, (withTransaction s a1).2, 1)) ∧
    ((withTransaction s a1).1 = .error .interfaceError →
      attempt_transaction_twice s a1 a2 =
        ((withTransaction (withTransaction s a1).2 a2).1,
         (withTransaction (withTransaction s a1).2 a2).2, 2)) ∧
    (∀ e, (withTransaction s a1).1 = .error e → e ≠ .interfaceError →
      attempt_transaction_twice s a1 a2 = (.error e, (withTransaction s a1).2, 1)) := by
  rcases hw : withTransaction s a1 with ⟨r1, s1⟩
  refine ⟨?_, ?_, ?_⟩
  · intro v hv
    simp only at hv
    subst hv
    simp [attempt_transaction_twice, hw]
  · intro hv
    simp only at hv
    subst hv
    simp [attempt_transaction_twice, hw]
  · intro e hv hne
    simp only at hv
    subst hv
    cases e <;> simp_all [attempt_transaction_twice, hw]

/-- C2 witness: a body that reports a dead connection on the first attempt
triggers exactly one retry whose outcome is final. -/
theorem c2_witness :
    attempt_transaction_twice onePool brokenParams okParams =
      ((withTransaction (withTransaction onePool brokenParams).2 okParams).1,
       (withTransaction (withTransaction onePool brokenParams).2 okParams).2, 2) :=
  (c2_retry_policy onePool brokenParams okParams).2.1 rfl

/-! ## C3 -/

/-- The pool seen after a whole with-transaction block has the same used
list as before it, for every combination of outcomes of the external calls:
partial construction failures put the acquired connection back, and a
successful construction is always paired with the unconditional put of the
exit path. -/
theorem withTransaction_used (s : PoolState) (p : AttemptParams α) :
    ((withTransaction s p).2).used = s.used := by
  unfold withTransaction txEnter freshHandle
  rcases hr : rawGetconn s with e | ⟨c, s1⟩
  · simp
  · have hu : s1.used = c :: s.used := rawGetconn_ok_used s c s1 hr
    rcases p.beginR with eb | _
    · simp [putconn_used_erase, hu]
    · rcases p.cursorR with ec | _
      · simp [putconn_used_erase, hu]
      · simp only [txExit]
        rcases p.bodyR with e2 | v <;> rcases p.commitR with e3 | _ <;>
          simp [putconn_used_erase, hu]

/-- C3: after a successful acquisition, a failure while beginning the
driver transaction, or while opening the cursor (whatever the rollback
attempted there does), propagates an error only after the connection has
left the used set again; and exiting a successfully entered handle always
puts the connection back and clears it, even when the commit-or-rollback
step itself raises (its outcome is propagated unchanged).  Consequently a
whole with-transaction block leaves the used list of the pool exactly as it
found it. -/
theorem c3_no_connection_leak (s : PoolState) (rollbackR commitR : Except PyErr Unit)
    (c : Nat) (s1 : PoolState) (hacq : rawGetconn s = .ok (c, s1)) :
    (∀ (e : PyErr) (cursorR : Except PyErr Unit),
      (txEnter s freshHandle (.error e) cursorR rollbackR).1 = .error e ∧
      ((txEnter s freshHandle (.error e) cursorR rollbackR).2).used = s.used) ∧
    (∀ e : PyErr,
      (∃ e2, (txEnter s freshHandle (.ok ()) (.error e) rollbackR).1 = .error e2) ∧
      ((txEnter s freshHandle (.ok ()) (.error e) rollbackR).2).used = s.used) ∧
    ((txExit s1 { connection := some c, transactionOpen := true, cursorOpen := true }
        commitR).1 = commitR ∧
     ((txExit s1 { connection := some c, transactionOpen := true, cursorOpen := true }
        commitR).2.1).used = s.used ∧
     (txExit s1 { connection := some c, transactionOpen := true, cursorOpen := true }
        commitR).2.2.connection = none) ∧
    (∀ p : AttemptParams Int, ((withTransaction s p).2).used = s.used) := by
  have hu : s1.used = c :: s.used := rawGetconn_ok_used s c s1 hacq
  refine ⟨?_, ?_, ?_, fun p => withTransaction_used s p⟩
  · intro e cursorR
    simp [txEnter, freshHandle, hacq, putconn_used_erase, hu]
  · intro e
    rcases rollbackR with e2 | _ <;>
      simp [txEnter, freshHandle, hacq, putconn_used_erase, hu]
  · simp [txExit, putconn_used_erase, hu]

/-- C3 witness: a failing transaction begin on a pool with one available
connection propagates the failure with the used list back at baseline. -/
theorem c3_witness :
    ((txEnter onePool freshHandle (.error .statementError) (.ok ()) (.ok ())).1
        = .error .statementError) ∧
    ((txEnter onePool freshHandle (.error .statementError) (.ok ()) (.ok ())).2).used
        = onePool.used :=
  (c3_no_connection_leak onePool (.ok ()) (.ok ()) 5
      { available := [], used := [5], closed := false, minconn := 1, maxconn := 1,
        nextId := 6 } rfl).1 .statementError (.ok ())

/-! ## C5 -/

/-- C5: query_one returns the Python None when the statement yields no
rows; with a column name given (a nonempty name, which is what the
truthiness test of the source accepts) and present in the first row it
returns that column value of the first row; with a mapper given and no
column it returns the mapper applied to the fields of the first row; with
neither it returns the first row itself. -/
theorem c5_query_one_cases (rows : List Row) (mapf : Option (Row → β))
    (col : Option String) :
    (rows = [] → query_one rows mapf col = .ok .pyNone) ∧
    (∀ (row : Row) (rest : List Row) (cname : String) (v : Int),
      rows = row :: rest → col = some cname → cname ≠ "" →
      rowLookup row cname = some v → query_one rows mapf col = .ok (.cell v)) ∧
    (∀ (row : Row) (rest : List Row) (f : Row → β),
      rows = row :: rest → mapf = some f → col = none →
      query_one rows mapf col = .ok (.mapped (f row))) ∧
    (∀ (row : Row) (rest : List Row),
      rows = row :: rest → mapf = none → col = none →
      query_one rows mapf col = .ok (.wholeRow row)) := by
  refine ⟨?_, ?_, ?_, ?_⟩
  · rintro rfl; rfl
  · rintro row rest cname v rfl rfl hne hv
    simp [query_one, columnTruthy, hne, hv]
  · rintro row rest f rfl rfl rfl
    simp [query_one, columnTruthy]
  · rintro row rest rfl rfl rfl
    simp [query_one, columnTruthy]

/-- C5 witness: one row with a single column x valued 7, queried with
column x, yields the bare value 7. -/
theorem c5_witness :
    query_one [[("x", 7)]] (none : Option (Row → Unit)) (some "x") = .ok (.cell 7) :=
  (c5_query_one_cases [[("x", 7)]] none (some "x")).2.1 [("x", 7)] [] "x" 7 rfl rfl
    (by decide) rfl

/-! ## C8 -/

/-- C8: the non-transactional execute path always returns the connection to
the pool (the used list is back at baseline on every exit path, including a
failing set_session); when acquisition and the autocommit switch succeed,
the single statement runs exactly once under autocommit; when the restoring
switch also succeeds, the final autocommit of the connection is off again
whatever the statement did, and the statement outcome is what the caller
sees; and the dispatch of execute with use_transaction false is exactly
this path, with at most one statement execution and no retry of any
kind. -/
theorem c8_autocommit_path (s : PoolState) (p : NoTxParams)
    (a1 a2 : AttemptParams Unit) :
    ((execute_no_transaction s p).pool).used = s.used ∧
    (∀ (c : Nat) (s1 : PoolState), rawGetconn s = .ok (c, s1) → p.setTrueR = .ok () →
      (execute_no_transaction s p).execCount = 1 ∧
      (execute_no_transaction s p).execAutocommit = some true) ∧
    (∀ (c : Nat) (s1 : PoolState), rawGetconn s = .ok (c, s1) → p.setTrueR = .ok () →
      p.setFalseR = .ok () →
      (execute_no_transaction s p).finalAutocommit = some false ∧
      (execute_no_transaction s p).result = p.execR) ∧
    (db_execute s false a1 a2 p =
      ((execute_no_transaction s p).result, (execute_no_transaction s p).pool,
        (execute_no_transaction s p).execCount) ∧
      (execute_no_transaction s p).execCount ≤ 1) := by
  refine ⟨?_, ?_, ?_, ?_⟩
  · unfold execute_no_transaction
    rcases hr : rawGetconn s with e | ⟨c, s1⟩
    · simp
    · have hu : s1.used = c :: s.used := rawGetconn_ok_used s c s1 hr
      rcases p.setTrueR with e | _
      · simp [putconn_used_erase, hu]
      · rcases p.setFalseR with e2 | _ <;> simp [putconn_used_erase, hu]
  · intro c s1 hr ht
    unfold execute_no_transaction
    rw [hr, ht]
    rcases p.setFalseR with e2 | _ <;> simp
  · intro c s1 hr ht hf
    unfold execute_no_transaction
    rw [hr, ht, hf]
    exact ⟨rfl, rfl⟩
  · constructor
    · rfl
    · unfold execute_no_transaction
      rcases rawGetconn s with e | ⟨c, s1⟩
      · simp
      · rcases p.setTrueR with e | _
        · simp
        · rcases p.setFalseR with e2 | _ <;> simp

/-- C8 witness: a statement that raises InterfaceError on the direct
autocommit path is executed once under autocommit, the flag is restored,
the connection goes back to the pool, and the error propagates with no
retry. -/
theorem c8_witness :
    ((execute_no_transaction onePool
        { setTrueR := .ok (), execR := .error .interfaceError,
          setFalseR := .ok () }).finalAutocommit = some false ∧
      (execute_no_transaction onePool
        { setTrueR := .ok (), execR := .error .interfaceError,
          setFalseR := .ok () }).result = .error .interfaceError) :=
  (c8_autocommit_path onePool
      { setTrueR := .ok (), execR := .error .interfaceError, setFalseR := .ok () }
      { beginR := .ok (), cursorR := .ok (), rollbackR := .ok (), bodyR := .ok (),
        commitR := .ok () }
      { beginR := .ok (), cursorR := .ok (), rollbackR := .ok (), bodyR := .ok (),
        commitR := .ok () }).2.2.1 5
    { available := [], used := [5], closed := false, minconn := 1, maxconn := 1,
      nextId := 6 } rfl rfl rfl

/-! ## C10 -/

/-- C10: the two errors this layer raises itself, the transaction re-entry
usage error and the login-failure wrapper, are PostgresDBException values;
PostgresDBException extends BaseException directly rather than Exception,
so an except Exception handler does not catch it, and in particular the
except Exception wrapper inside login passes an inner PostgresDBException
through unwrapped while wrapping every Exception-descended failure. -/
theorem c10_base_exception_hierarchy :
    (∀ (s : PoolState) (c : Nat) (tb cb : Bool) (r1 r2 r3 : Except PyErr Unit),
      (txEnter s { connection := some c, transactionOpen := tb, cursorOpen := cb }
        r1 r2 r3).1 = .error .postgresDBExc) ∧
    PyErr.postgresDBExc.cls = .postgresDBException ∧
    isSubclassOf .postgresDBException .baseException = true ∧
    isSubclassOf .postgresDBException .exception = false ∧
    caughtByExceptException .postgresDBException = false ∧
    login (.error .postgresDBException) = .error .postgresDBException ∧
    (∀ e : ExcClass, caughtByExceptException e = true →
      login (.error e) = .error .postgresDBException) := by
  refine ⟨fun s c tb cb r1 r2 r3 => rfl, rfl, rfl, rfl, rfl, rfl, ?_⟩
  intro e he
  simp [login, he]

/-- C10 witness: a ValueError from pool construction is caught by the
wrapper and re-raised as PostgresDBException. -/
theorem c10_witness :
    caughtByExceptException .valueError = true ∧
    login (.error .valueError) = .error .postgresDBException :=
  ⟨by decide, (c10_base_exception_hierarchy).2.2.2.2.2.2 .valueError (by decide)⟩

/-! ## C9 -/

/-- C9 counterexample: the claim asserts that in every interleaving of one
releaser and one waiter there is no lost wakeup between the waiter's failed
first attempt and its wait on the condition variable, the waiter always
observing the post-release pool state before re-attempting.  The check and
the wait are not atomic in the source (the lock of line 131 is released
before the condition lock of line 136 is taken), and this interleaving
refutes the claim: the waiter fails its first attempt; the releaser then
runs its whole putconn, returning the connection and notifying nobody; only
then does the waiter enter the wait.  With pool_timeout None the resulting
state is stuck: one connection sits available while the waiter is blocked
forever and never re-attempts acquisition, so the released connection is
lost to it. -/
theorem c9_lost_wakeup_counterexample :
    wStep (initSys false) =
      [{ pool := exhaustedPool, wpc := .preWait, rpc := .relStart,
         timeoutFinite := false, releasedWhileWaiting := false }] ∧
    rStep { pool := exhaustedPool, wpc := .preWait, rpc := .relStart,
            timeoutFinite := false, releasedWhileWaiting := false } =
      [{ pool := { available := [0], used := [], closed := false, minconn := 1,
                   maxconn := 1, nextId := 1 },
         wpc := .preWait, rpc := .relNotify, timeoutFinite := false,
         releasedWhileWaiting := false }] ∧
    rStep { pool := { available := [0], used := [], closed := false, minconn := 1,
                      maxconn := 1, nextId := 1 },
            wpc := .preWait, rpc := .relNotify, timeoutFinite := false,
            releasedWhileWaiting := false } =
      [{ pool := { available := [0], used := [], closed := false, minconn := 1,
                   maxconn := 1, nextId := 1 },
         wpc := .preWait, rpc := .relDone, timeoutFinite := false,
         releasedWhileWaiting := false }] ∧
    wStep { pool := { available := [0], used := [], closed := false, minconn := 1,
                      maxconn := 1, nextId := 1 },
            wpc := .preWait, rpc := .relDone, timeoutFinite := false,
            releasedWhileWaiting := false } =
      [{ pool := { available := [0], used := [], closed := false, minconn := 1,
                   maxconn := 1, nextId := 1 },
         wpc := .waiting, rpc := .relDone, timeoutFinite := false,
         releasedWhileWaiting := false }] ∧
    sysSteps { pool := { available := [0], used := [], closed := false, minconn := 1,
                         maxconn := 1, nextId := 1 },
               wpc := .waiting, rpc := .relDone, timeoutFinite := false,
               releasedWhileWaiting := false } = [] := by
  decide

/-- C9 as amended: in every interleaving of one releaser and one waiter on
the exhausted one-connection pool, a release that completes while the
waiter is actually blocked in the condition wait is followed by a wake, and
the waiter ends holding a connection (for either pool_timeout
configuration); and with a finite pool_timeout the waiter never hangs:
every maximal interleaving ends with it holding a connection or raising the
pool error.  The bounded exploration covers every maximal run of the
two-thread system. -/
theorem c9_release_during_wait_never_lost :
    checkFrom 12 (initSys true) = true ∧ checkFrom 12 (initSys false) = true := by
  decide

/-! ## C6 -/

/-- For a positive page size the chunks concatenate back to the input. -/
theorem backported_paginate_flatten (k : Nat) :
    ∀ (n : Nat) (seq : List α), seq.length ≤ n →
      (backported_paginate seq (k + 1)).flatten = seq := by
  intro n
  induction n with
  | zero =>
    intro seq h
    have : seq = [] := by cases seq <;> simp_all
    subst this
    simp [backported_paginate]
  | succ n ih =>
    intro seq h
    cases seq with
    | nil => simp [backported_paginate]
    | cons x xs =>
      rw [backported_paginate]
      simp only [List.flatten_cons]
      rw [ih (xs.drop k) (by simp at h ⊢; omega)]
      simp [List.take_append_drop]

/-- For a positive page size no chunk is empty and every chunk has at most
page size elements. -/
theorem backported_paginate_chunks (k : Nat) :
    ∀ (n : Nat) (seq : List α), seq.length ≤ n →
      ∀ chunk ∈ backported_paginate seq (k + 1), chunk ≠ [] ∧ chunk.length ≤ k + 1 := by
  intro n
  induction n with
  | zero =>
    intro seq h
    have : seq = [] := by cases seq <;> simp_all
    subst this
    simp [backported_paginate]
  | succ n ih =>
    intro seq h chunk hc
    cases seq with
    | nil => simp [backported_paginate] at hc
    | cons x xs =>
      rw [backported_paginate] at hc
      rcases List.mem_cons.mp hc with rfl | hmem
      · refine ⟨by simp, ?_⟩
        simp only [List.length_cons, List.length_take]
        have := Nat.min_le_left k xs.length
        omega
      · exact ih (xs.drop k) (by simp at h ⊢; omega) chunk hmem

/-- Five elements at page size two make exactly three chunks. -/
theorem backported_paginate_five (seq : List α) (h : seq.length = 5) :
    (backported_paginate seq 2).length = 3 := by
  rcases seq with _ | ⟨a, _ | ⟨b, _ | ⟨c, _ | ⟨d, _ | ⟨e, rest⟩⟩⟩⟩⟩ <;>
      simp only [List.length_cons, List.length_nil] at h <;> try omega
  have hr : rest = [] := List.length_eq_zero.mp (by omega)
  subst hr
  simp [backported_paginate]

/-- The page loop executes exactly one statement per page. -/
theorem ev_loop_stmt_count (mog : List Nat → α → List Nat) (arity : α → Nat)
    (pr po : List (List Nat)) (tmplOpt : Option (List Nat)) (pages : List (List α))
    (resps : List (List ρ)) :
    (ev_loop mog arity pr po tmplOpt pages resps).1.length = pages.length := by
  induction pages generalizing tmplOpt resps with
  | nil => rfl
  | cons page pages ih => simp [ev_loop, ih]

/-- With one driver response per page, the accumulated rows are the
responses concatenated in page order. -/
theorem ev_loop_rows_in_order (mog : List Nat → α → List Nat) (arity : α → Nat)
    (pr po : List (List Nat)) (tmplOpt : Option (List Nat)) (pages : List (List α))
    (resps : List (List ρ)) (h : resps.length = pages.length) :
    (ev_loop mog arity pr po tmplOpt pages resps).2 = resps.flatten := by
  induction pages generalizing tmplOpt resps with
  | nil =>
    have : resps = [] := List.length_eq_zero.mp (by simpa using h)
    subst this
    rfl
  | cons page pages ih =>
    rcases resps with _ | ⟨r, rs⟩
    · simp at h
    · simp only [List.length_cons, Nat.succ.injEq] at h
      simp [ev_loop, ih _ rs h]

/-- C6 counterexample: the claim quantifies over every page size, but at
page size 0 the first iteration of the generator loop (lines 51-60) calls
next zero times and immediately yields the still-empty page, leaving the
input unconsumed and the loop not finished, so the generator emits an empty
chunk (and keeps doing so forever), contradicting both the claim and the
docstring at line 47. -/
theorem c6_empty_chunk_counterexample :
    paginate_step ([1, 2, 3] : List Nat) 0 = (some [], [1, 2, 3], false) := by
  decide

/-- C6 as amended: for every positive page size the chunks are consecutive
(they concatenate back to the argument sequence), none is empty, each has
at most page size elements, five argument rows at page size two give
exactly three chunks and hence exactly three batched statement executions
(one per page), and with one driver response per executed statement the
fetched rows accumulate across pages in page order. -/
theorem c6_pagination_batching (ps : Nat) (hps : 0 < ps) (seq : List α)
    (mog : List Nat → α → List Nat) (arity : α → Nat) (pr po : List (List Nat))
    (tmplOpt : Option (List Nat)) (pages : List (List α)) (resps : List (List ρ)) :
    (backported_paginate seq ps).flatten = seq ∧
    (∀ chunk ∈ backported_paginate seq ps, chunk ≠ [] ∧ chunk.length ≤ ps) ∧
    (seq.length = 5 → (backported_paginate seq 2).length = 3) ∧
    (ev_loop mog arity pr po tmplOpt pages resps).1.length = pages.length ∧
    (resps.length = pages.length →
      (ev_loop mog arity pr po tmplOpt pages resps).2 = resps.flatten) := by
  obtain ⟨k, rfl⟩ : ∃ k, ps = k + 1 := ⟨ps - 1, by omega⟩
  exact ⟨backported_paginate_flatten k seq.length seq le_rfl,
    backported_paginate_chunks k seq.length seq le_rfl,
    fun h => backported_paginate_five seq h,
    ev_loop_stmt_count mog arity pr po tmplOpt pages resps,
    fun h => ev_loop_rows_in_order mog arity pr po tmplOpt pages resps h⟩

/-- C6 witness: five rows of two integers at page size two paginate into
three nonempty chunks that concatenate back to the input. -/
theorem c6_witness :
    (backported_paginate [[1, 2], [3, 4], [5, 6], [7, 8], [9, 10]] 2).flatten =
      [[1, 2], [3, 4], [5, 6], [7, 8], [9, 10]] ∧
    (backported_paginate ([[1, 2], [3, 4], [5, 6], [7, 8], [9, 10]] : List (List Nat))
      2).length = 3 :=
  ⟨(c6_pagination_batching 2 (by decide) [[1, 2], [3, 4], [5, 6], [7, 8], [9, 10]]
      (fun t _ => t) (fun r => r.length) [] [] none [] ([] : List (List Nat))).1,
   (c6_pagination_batching 2 (by decide)
      ([[1, 2], [3, 4], [5, 6], [7, 8], [9, 10]] : List (List Nat))
      (fun t _ => t) (fun r => r.length) [] [] none [] ([] : List (List Nat))).2.2.1
     (by decide)⟩

/-! ## C7: token-level lemmas -/

/-- An escape token is exactly a percent byte followed by one more byte. -/
theorem isEscapeTok_shape (tok : List Nat) (h : isEscapeTok tok = true) :
    ∃ t1, tok = [37, t1] := by
  rcases tok with _ | ⟨t0, _ | ⟨t1, _ | ⟨t2, tl⟩⟩⟩ <;> simp [isEscapeTok] at h
  exact ⟨t1, by simp [h]⟩

/-- The split loop never inspects its accumulators, so running it with
nonempty accumulators is running it empty and prefixing the results. -/
theorem splitSqlLoop_acc (ts : List (List Nat)) :
    ∀ (pr po : List (List Nat)) (b : Bool),
      splitSqlLoop ts pr po b = withAcc pr po (splitSqlLoop ts [] [] b) := by
  induction ts with
  | nil =>
    intro pr po b
    cases b <;> simp [splitSqlLoop, withAcc]
  | cons tok toks ih =>
    intro pr po b
    by_cases htok : isEscapeTok tok = true
    · obtain ⟨t1, rfl⟩ := isEscapeTok_shape tok htok
      by_cases hs : t1 = 115
      · subst hs
        cases b with
        | false =>
          have l1 : ∀ pr2 po2, splitSqlLoop ([37, 115] :: toks) pr2 po2 false =
              splitSqlLoop toks pr2 po2 true := by
            intro pr2 po2
            simp [splitSqlLoop, isEscapeTok]
          rw [l1, l1, ih pr po true]
        | true =>
          simp [splitSqlLoop, isEscapeTok, withAcc]
      · by_cases hp : t1 = 37
        · subst hp
          cases b with
          | false =>
            have l1 : ∀ pr2 po2, splitSqlLoop ([37, 37] :: toks) pr2 po2 false =
                splitSqlLoop toks (pr2 ++ [[37]]) po2 false := by
              intro pr2 po2
              simp [splitSqlLoop, isEscapeTok]
            rw [l1, l1]
            simp only [List.nil_append]
            rw [ih (pr ++ [[37]]) po false, ih [[37]] [] false]
            rcases splitSqlLoop toks [] [] false with m | ⟨p, q⟩ <;>
              simp [withAcc]
          | true =>
            have l1 : ∀ pr2 po2, splitSqlLoop ([37, 37] :: toks) pr2 po2 true =
                splitSqlLoop toks pr2 (po2 ++ [[37]]) true := by
              intro pr2 po2
              simp [splitSqlLoop, isEscapeTok]
            rw [l1, l1]
            simp only [List.nil_append]
            rw [ih pr (po ++ [[37]]) true, ih [] [[37]] true]
            rcases splitSqlLoop toks [] [] true with m | ⟨p, q⟩ <;>
              simp [withAcc]
        · cases b <;> simp [splitSqlLoop, isEscapeTok, hs, hp, withAcc]
    · have hfalse : isEscapeTok tok = false := by
        cases hh : isEscapeTok tok
        · rfl
        · exact absurd hh htok
      cases b with
      | false =>
        have l1 : ∀ pr2 po2, splitSqlLoop (tok :: toks) pr2 po2 false =
            splitSqlLoop toks (pr2 ++ [tok]) po2 false := by
          intro pr2 po2
          simp [splitSqlLoop, hfalse]
        rw [l1, l1]
        simp only [List.nil_append]
        rw [ih (pr ++ [tok]) po false, ih [tok] [] false]
        rcases splitSqlLoop toks [] [] false with m | ⟨p, q⟩ <;> simp [withAcc]
      | true =>
        have l1 : ∀ pr2 po2, splitSqlLoop (tok :: toks) pr2 po2 true =
            splitSqlLoop toks pr2 (po2 ++ [tok]) true := by
          intro pr2 po2
          simp [splitSqlLoop, hfalse]
        rw [l1, l1]
        simp only [List.nil_append]
        rw [ih pr (po ++ [tok]) true, ih [] [tok] true]
        rcases splitSqlLoop toks [] [] true with m | ⟨p, q⟩ <;> simp [withAcc]

/-- consFirst never yields the empty chunk list. -/
theorem consFirst_ne_nil (c : Nat) (ts : List (List Nat)) : consFirst c ts ≠ [] := by
  cases ts <;> simp [consFirst]

/-- The tokenization never yields the empty chunk list. -/
theorem reSplitPct_ne_nil : ∀ l : List Nat, reSplitPct l ≠ [] := by
  intro l
  match l with
  | [] => simp [reSplitPct]
  | [c] => simp [reSplitPct]
  | c :: d :: rest =>
    rw [reSplitPct]
    split
    · simp
    · exact consFirst_ne_nil _ _

/-- On newline-free input, the first chunk of the tokenization is treated
as text by the split loop: it is never a two-byte chunk starting with the
percent byte. -/
theorem reSplitPct_head_text (l : List Nat) (h10 : (10 : Nat) ∉ l) (t : List Nat)
    (ts : List (List Nat)) (h : reSplitPct l = t :: ts) :
    isEscapeTok t = false := by
  match l with
  | [] =>
    rw [reSplitPct] at h
    cases h
    rfl
  | [c] =>
    rw [reSplitPct] at h
    cases h
    rfl
  | c :: d :: rest =>
    rw [reSplitPct] at h
    split at h
    · cases h
      rfl
    · have hd : d ≠ 10 := by
        intro hd
        exact h10 (by simp [hd])
      have hc : c ≠ 37 := by
        rename_i hcond
        intro hcx
        exact hcond ⟨hcx, hd⟩
      rcases hr : reSplitPct (d :: rest) with _ | ⟨t2, ts2⟩
      · exact absurd hr (reSplitPct_ne_nil _)
      · rw [hr] at h
        simp only [consFirst] at h
        have ht : t = c :: t2 := by
          have := (List.cons.injEq _ _ _ _).mp h
          exact this.1.symm
        subst ht
        simp [isEscapeTok, hc]

/-- One percent-s step of the composed run: on the pre side it switches the
run to the post side; on the post side it is the more-than-one-placeholder
error. -/
theorem runFlat_escS (rest : List Nat) :
    runFlat (37 :: 115 :: rest) false = runFlat rest true ∧
    runFlat (37 :: 115 :: rest) true =
      .error "the query contains more than one placeholder" := by
  have hre : reSplitPct (37 :: 115 :: rest) = [] :: [37, 115] :: reSplitPct rest := by
    simp [reSplitPct]
  constructor
  · unfold runFlat
    rw [hre]
    have l1 : splitSqlLoop ([] :: [37, 115] :: reSplitPct rest) [] [] false =
        splitSqlLoop (reSplitPct rest) [[]] [] true := by
      simp [splitSqlLoop, isEscapeTok]
    rw [l1, splitSqlLoop_acc (reSplitPct rest) [[]] [] true]
    rcases splitSqlLoop (reSplitPct rest) [] [] true with m | ⟨p, q⟩ <;>
      simp [withAcc, Except.map]
  · unfold runFlat
    rw [hre]
    simp [splitSqlLoop, isEscapeTok, Except.map]

/-- One escaped-percent step of the composed run: a single percent byte is
emitted on the current side and the run continues. -/
theorem runFlat_escPct (rest : List Nat) (b : Bool) :
    runFlat (37 :: 37 :: rest) b =
      (runFlat rest b).map
        (fun pq => if b then (pq.1, 37 :: pq.2) else (37 :: pq.1, pq.2)) := by
  have hre : reSplitPct (37 :: 37 :: rest) = [] :: [37, 37] :: reSplitPct rest := by
    simp [reSplitPct]
  cases b with
  | false =>
    unfold runFlat
    rw [hre]
    have l1 : splitSqlLoop ([] :: [37, 37] :: reSplitPct rest) [] [] false =
        splitSqlLoop (reSplitPct rest) [[], [37]] [] false := by
      simp [splitSqlLoop, isEscapeTok]
    rw [l1, splitSqlLoop_acc (reSplitPct rest) [[], [37]] [] false]
    rcases splitSqlLoop (reSplitPct rest) [] [] false with m | ⟨p, q⟩ <;>
      simp [withAcc, Except.map]
  | true =>
    unfold runFlat
    rw [hre]
    have l1 : splitSqlLoop ([] :: [37, 37] :: reSplitPct rest) [] [] true =
        splitSqlLoop (reSplitPct rest) [] [[], [37]] true := by
      simp [splitSqlLoop, isEscapeTok]
    rw [l1, splitSqlLoop_acc (reSplitPct rest) [] [[], [37]] true]
    rcases splitSqlLoop (reSplitPct rest) [] [] true with m | ⟨p, q⟩ <;>
      simp [withAcc, Except.map]

/-- One unsupported-escape step of the composed run: any percent escape
other than percent-s and double percent (and other than the unmatched
percent-newline) is the unsupported-format-character error on both
sides. -/
theorem runFlat_escOther (d : Nat) (rest : List Nat) (hd1 : d ≠ 10) (hd2 : d ≠ 115)
    (hd3 : d ≠ 37) (b : Bool) :
    runFlat (37 :: d :: rest) b = .error "unsupported format character" := by
  have hre : reSplitPct (37 :: d :: rest) = [] :: [37, d] :: reSplitPct rest := by
    simp [reSplitPct, hd1]
  unfold runFlat
  rw [hre]
  cases b <;> simp [splitSqlLoop, isEscapeTok, hd2, hd3, Except.map]

/-- One ordinary-text step of the composed run on newline-free input: the
byte is emitted on the current side and the run continues. -/
theorem runFlat_text (c : Nat) (rest : List Nat) (hc : c ≠ 37) (hne : rest ≠ [])
    (h10 : (10 : Nat) ∉ rest) (b : Bool) :
    runFlat (c :: rest) b =
      (runFlat rest b).map
        (fun pq => if b then (pq.1, c :: pq.2) else (c :: pq.1, pq.2)) := by
  rcases rest with _ | ⟨d, rest2⟩
  · exact absurd rfl hne
  have hre : reSplitPct (c :: d :: rest2) = consFirst c (reSplitPct (d :: rest2)) := by
    rw [reSplitPct, if_neg]
    rintro ⟨h1, h2⟩
    exact hc h1
  rcases hr : reSplitPct (d :: rest2) with _ | ⟨t, ts⟩
  · exact absurd hr (reSplitPct_ne_nil _)
  have htext : isEscapeTok t = false :=
    reSplitPct_head_text (d :: rest2) h10 t ts hr
  have hctext : isEscapeTok (c :: t) = false := by
    simp [isEscapeTok, hc]
  unfold runFlat
  rw [hre, hr]
  simp only [consFirst]
  cases b with
  | false =>
    have l1 : splitSqlLoop ((c :: t) :: ts) [] [] false =
        splitSqlLoop ts [c :: t] [] false := by
      simp [splitSqlLoop, hctext]
    have l2 : splitSqlLoop (t :: ts) ([] : List (List Nat)) [] false =
        splitSqlLoop ts [t] [] false := by
      simp [splitSqlLoop, htext]
    rw [l1, l2, splitSqlLoop_acc ts [c :: t] [] false, splitSqlLoop_acc ts [t] [] false]
    rcases splitSqlLoop ts [] [] false with m | ⟨p, q⟩ <;> simp [withAcc, Except.map]
  | true =>
    have l1 : splitSqlLoop ((c :: t) :: ts) [] [] true =
        splitSqlLoop ts [] [c :: t] true := by
      simp [splitSqlLoop, hctext]
    have l2 : splitSqlLoop (t :: ts) ([] : List (List Nat)) [] true =
        splitSqlLoop ts [] [t] true := by
      simp [splitSqlLoop, htext]
    rw [l1, l2, splitSqlLoop_acc ts [] [c :: t] true, splitSqlLoop_acc ts [] [t] true]
    rcases splitSqlLoop ts [] [] true with m | ⟨p, q⟩ <;> simp [withAcc, Except.map]

/-- The composed run on the empty template: no placeholder on the pre side,
an empty remainder on the post side. -/
theorem runFlat_nil :
    runFlat [] false = .error "the query does not contain any placeholder" ∧
    runFlat [] true = .ok ([], []) := by
  constructor <;> simp [runFlat, reSplitPct, splitSqlLoop, isEscapeTok, Except.map]

/-- The composed run on a one-byte template: no placeholder on the pre
side, the byte itself on the post side (a lone trailing percent is plain
text). -/
theorem runFlat_single (c : Nat) :
    runFlat [c] false = .error "the query does not contain any placeholder" ∧
    runFlat [c] true = .ok ([], [c]) := by
  have h1 : isEscapeTok [c] = false := by
    simp [isEscapeTok]
  constructor <;> simp [runFlat, reSplitPct, splitSqlLoop, h1, Except.map]

/-! ## C7: case lemmas and characterization -/

/-- The claimed behavior holds of the empty template. -/
theorem splitSpec_nil : SplitSpecPre [] ∧ SplitSpecPost [] := by
  constructor
  · constructor
    · rintro ⟨h1, -⟩
      simp [phCount] at h1
    · intro
      exact ⟨_, runFlat_nil.1⟩
  · constructor
    · intro
      exact runFlat_nil.2
    · intro h
      exact absurd ⟨rfl, rfl⟩ h

/-- The claimed behavior holds of every one-byte template. -/
theorem splitSpec_single (c : Nat) : SplitSpecPre [c] ∧ SplitSpecPost [c] := by
  constructor
  · constructor
    · rintro ⟨h1, -⟩
      simp [phCount] at h1
    · intro
      exact ⟨_, (runFlat_single c).1⟩
  · constructor
    · intro
      exact (runFlat_single c).2
    · intro h
      exact absurd ⟨rfl, rfl⟩ h

/-- A percent-s step preserves the claimed behavior: the pre side of the
extended template behaves like the post side of the remainder, and the post
side of the extended template always fails (second placeholder). -/
theorem splitSpec_escS (rest : List Nat) (hpost : SplitSpecPost rest) :
    SplitSpecPre (37 :: 115 :: rest) ∧ SplitSpecPost (37 :: 115 :: rest) := by
  have hph : phCount (37 :: 115 :: rest) = phCount rest + 1 := by simp [phCount]
  have hbad : hasBadEscape (37 :: 115 :: rest) = hasBadEscape rest := by
    simp [hasBadEscape]
  have hsp : splitAtPH (37 :: 115 :: rest) = some ([], unescapePct rest) := by
    simp [splitAtPH]
  constructor
  · constructor
    · rintro ⟨h1, h2⟩
      rw [hph] at h1
      rw [hbad] at h2
      have h0 : phCount rest = 0 := by omega
      refine ⟨([], unescapePct rest), ?_, hsp⟩
      rw [(runFlat_escS rest).1]
      exact hpost.1 ⟨h0, h2⟩
    · intro h
      rw [hph, hbad] at h
      have hr : ¬(phCount rest = 0 ∧ hasBadEscape rest = false) := by
        rintro ⟨a, b⟩
        exact h ⟨by omega, b⟩
      obtain ⟨m, hm⟩ := hpost.2 hr
      exact ⟨m, by rw [(runFlat_escS rest).1]; exact hm⟩
  · constructor
    · rintro ⟨h1, -⟩
      rw [hph] at h1
      omega
    · intro
      exact ⟨_, (runFlat_escS rest).2⟩

/-- A double-percent step preserves the claimed behavior, emitting one
percent byte on the current side. -/
theorem splitSpec_escPct (rest : List Nat) (hpre : SplitSpecPre rest)
    (hpost : SplitSpecPost rest) :
    SplitSpecPre (37 :: 37 :: rest) ∧ SplitSpecPost (37 :: 37 :: rest) := by
  have hph : phCount (37 :: 37 :: rest) = phCount rest := by simp [phCount]
  have hbad : hasBadEscape (37 :: 37 :: rest) = hasBadEscape rest := by
    simp [hasBadEscape]
  have hun : unescapePct (37 :: 37 :: rest) = 37 :: unescapePct rest := by
    simp [unescapePct]
  have hsp : splitAtPH (37 :: 37 :: rest) =
      (splitAtPH rest).map (fun p => (37 :: p.1, p.2)) := by
    simp [splitAtPH]
  constructor
  · constructor
    · rintro ⟨h1, h2⟩
      rw [hph] at h1
      rw [hbad] at h2
      obtain ⟨pq, hrun, hat⟩ := hpre.1 ⟨h1, h2⟩
      refine ⟨(37 :: pq.1, pq.2), ?_, ?_⟩
      · rw [runFlat_escPct rest false, hrun]
        simp [Except.map]
      · rw [hsp, hat]
        simp
    · intro h
      rw [hph, hbad] at h
      obtain ⟨m, hm⟩ := hpre.2 h
      refine ⟨m, ?_⟩
      rw [runFlat_escPct rest false, hm]
      simp [Except.map]
  · constructor
    · rintro ⟨h1, h2⟩
      rw [hph] at h1
      rw [hbad] at h2
      rw [runFlat_escPct rest true, hpost.1 ⟨h1, h2⟩, hun]
      simp [Except.map]
    · intro h
      rw [hph, hbad] at h
      obtain ⟨m, hm⟩ := hpost.2 h
      exact ⟨m, by rw [runFlat_escPct rest true, hm]; simp [Except.map]⟩

/-- An unsupported-escape step makes both sides fail, as the claim
requires. -/
theorem splitSpec_escOther (d : Nat) (rest : List Nat) (hd1 : d ≠ 10)
    (hd2 : d ≠ 115) (hd3 : d ≠ 37) :
    SplitSpecPre (37 :: d :: rest) ∧ SplitSpecPost (37 :: d :: rest) := by
  have hbad : hasBadEscape (37 :: d :: rest) = true := by
    simp [hasBadEscape, hd2, hd3]
  constructor
  · constructor
    · rintro ⟨-, h2⟩
      rw [hbad] at h2
      simp at h2
    · intro
      exact ⟨_, runFlat_escOther d rest hd1 hd2 hd3 false⟩
  · constructor
    · rintro ⟨-, h2⟩
      rw [hbad] at h2
      simp at h2
    · intro
      exact ⟨_, runFlat_escOther d rest hd1 hd2 hd3 true⟩

/-- An ordinary-text step preserves the claimed behavior, emitting the byte
on the current side. -/
theorem splitSpec_text (c : Nat) (rest : List Nat) (hc : c ≠ 37) (hne : rest ≠ [])
    (h10 : (10 : Nat) ∉ rest) (hpre : SplitSpecPre rest) (hpost : SplitSpecPost rest) :
    SplitSpecPre (c :: rest) ∧ SplitSpecPost (c :: rest) := by
  rcases rest with _ | ⟨d, rest2⟩
  · exact absurd rfl hne
  have hph : phCount (c :: d :: rest2) = phCount (d :: rest2) := by
    simp [phCount, hc]
  have hbad : hasBadEscape (c :: d :: rest2) = hasBadEscape (d :: rest2) := by
    simp [hasBadEscape, hc]
  have hun : unescapePct (c :: d :: rest2) = c :: unescapePct (d :: rest2) := by
    simp [unescapePct, hc]
  have hsp : splitAtPH (c :: d :: rest2) =
      (splitAtPH (d :: rest2)).map (fun p => (c :: p.1, p.2)) := by
    simp [splitAtPH, hc]
  have hrun := runFlat_text c (d :: rest2) hc (by simp) h10
  constructor
  · constructor
    · rintro ⟨h1, h2⟩
      rw [hph] at h1
      rw [hbad] at h2
      obtain ⟨pq, hr, hat⟩ := hpre.1 ⟨h1, h2⟩
      refine ⟨(c :: pq.1, pq.2), ?_, ?_⟩
      · rw [hrun false, hr]
        simp [Except.map]
      · rw [hsp, hat]
        simp
    · intro h
      rw [hph, hbad] at h
      obtain ⟨m, hm⟩ := hpre.2 h
      refine ⟨m, ?_⟩
      rw [hrun false, hm]
      simp [Except.map]
  · constructor
    · rintro ⟨h1, h2⟩
      rw [hph] at h1
      rw [hbad] at h2
      rw [hrun true, hpost.1 ⟨h1, h2⟩, hun]
      simp [Except.map]
    · intro h
      rw [hph, hbad] at h
      obtain ⟨m, hm⟩ := hpost.2 h
      exact ⟨m, by rw [hrun true, hm]; simp [Except.map]⟩

/-- The claimed behavior holds of every newline-free template, on both
sides, by strong induction on the length. -/
theorem runFlat_characterization :
    ∀ (n : Nat) (sql : List Nat), sql.length ≤ n → (10 : Nat) ∉ sql →
      SplitSpecPre sql ∧ SplitSpecPost sql := by
  intro n
  induction n with
  | zero =>
    intro sql hlen h10
    have : sql = [] := by cases sql <;> simp_all
    subst this
    exact splitSpec_nil
  | succ n ih =>
    intro sql hlen h10
    rcases sql with _ | ⟨c, _ | ⟨d, rest⟩⟩
    · exact splitSpec_nil
    · exact splitSpec_single c
    · have h10d : (10 : Nat) ∉ (d :: rest) := fun hx => h10 (List.mem_cons_of_mem _ hx)
      have h10r : (10 : Nat) ∉ rest := fun hx => h10d (List.mem_cons_of_mem _ hx)
      have hlen2 : rest.length ≤ n := by
        simp only [List.length_cons] at hlen
        omega
      by_cases hc : c = 37
      · subst hc
        have hd10 : d ≠ 10 := fun hdx => h10 (by simp [hdx])
        by_cases hd : d = 115
        · subst hd
          exact splitSpec_escS rest (ih rest hlen2 h10r).2
        · by_cases hd2 : d = 37
          · subst hd2
            obtain ⟨hpre, hpost⟩ := ih rest hlen2 h10r
            exact splitSpec_escPct rest hpre hpost
          · exact splitSpec_escOther d rest hd10 hd hd2
      · have hlen3 : (d :: rest).length ≤ n := by
          simp only [List.length_cons] at hlen ⊢
          omega
        obtain ⟨hpre, hpost⟩ := ih (d :: rest) hlen3 h10d
        exact splitSpec_text c (d :: rest) hc (by simp) h10d hpre hpost

/-- C7 counterexample: under the left-to-right escape scan the template
a percent newline b percent-s contains exactly one percent-s placeholder
and also a percent escape that is neither percent-s nor double percent (the
percent before the newline), so the claim as stated requires the split to
fail; the code succeeds, returning the escape bytes verbatim, because its
regex does not treat a percent followed by a newline as an escape. -/
theorem c7_counterexample :
    hasBadEscape [97, 37, 10, 98, 37, 115] = true ∧
    phCount [97, 37, 10, 98, 37, 115] = 1 ∧
    split_sql_flat [97, 37, 10, 98, 37, 115] = .ok ([97, 37, 10, 98], []) :=
  ⟨rfl, rfl, rfl⟩

/-- C7 as amended: for every template containing no newline byte, the split
succeeds exactly when the template contains exactly one percent-s
placeholder (escaped percents not counted) and no other percent escape, and
then returns the text before and after that placeholder with every double
percent replaced by a single percent; with zero or several placeholders, or
any other percent escape, it fails before any statement is executed. -/
theorem c7_single_placeholder_split (sql : List Nat) (h10 : (10 : Nat) ∉ sql) :
    (phCount sql = 1 ∧ hasBadEscape sql = false →
      ∃ pq, split_sql_flat sql = .ok pq ∧ splitAtPH sql = some pq) ∧
    (phCount sql ≠ 1 ∨ hasBadEscape sql = true →
      ∃ m, split_sql_flat sql = .error m) := by
  have h := (runFlat_characterization sql.length sql le_rfl h10).1
  have heq : split_sql_flat sql = runFlat sql false := rfl
  constructor
  · intro hx
    rw [heq]
    exact h.1 hx
  · intro hor
    rw [heq]
    refine h.2 ?_
    rintro ⟨h1, h2⟩
    rcases hor with h3 | h3
    · exact h3 h1
    · rw [h2] at h3
      simp at h3

/-- C7 witness: the newline-free template a percent-s b has exactly one
placeholder and splits into prefix a and tail b. -/
theorem c7_witness :
    (10 : Nat) ∉ [97, 37, 115, 98] ∧
    (∃ pq, split_sql_flat [97, 37, 115, 98] = .ok pq ∧
      splitAtPH [97, 37, 115, 98] = some pq) :=
  ⟨by decide, (c7_single_placeholder_split [97, 37, 115, 98] (by decide)).1 ⟨rfl, rfl⟩⟩

end ElephantParsel
